import Mathlib

/-!
Verification of the Telegram signal extraction and deduplication pipeline
(`telegram_extractor.py`): field parser, record classifier, duplicate
detector, and the pipeline driver, together with the backup serialization
behaviour of the dataset store.

Modelling conventions:
* Message texts are Lean `String`s; the regular-expression searches of
  `parse_signal` are embedded as executable scanners over `List Char`
  implementing Python `re` leftmost-match semantics for the concrete
  patterns of the source (the forced-backtracking analysis for each
  pattern is recorded at the corresponding definition).
* Python floats only ever arise in the source as values of the literal
  form `\d+\.\d+` parsed by `float(...)`, subsequently compared with
  `abs(x - y) < 0.0001`.  They are modelled exactly as canonical decimal
  fractions (`Dec`): an integer mantissa with a base-10 exponent, kept in
  the canonical form that makes structural equality coincide with value
  equality.  `Dec.toRat` interprets a `Dec` as a rational number.
* Timestamps are modelled as integers counting seconds (the source works
  with timezone-aware datetimes and `pd.Timedelta(minutes=...)`).
* `pandas` rows are records with optional fields; a missing/NaN cell is
  `none`, and every elementwise comparison against NaN/None is false,
  exactly as in pandas.
-/

/-- Exact decimal fraction `num / 10 ^ exp`, the value space of every float
appearing in the extractor (floats are produced only by `float` on strings
matching `\d+\.\d+`).  Canonical form: either the exponent is zero or the
mantissa is not divisible by 10, so that two `Dec`s are structurally equal
iff they denote the same number. -/
structure Dec where
  num : ℤ
  exp : ℕ
  canon : exp = 0 ∨ num % 10 ≠ 0
deriving DecidableEq, Repr

/-- Normalize a mantissa/exponent pair into canonical form by removing
trailing factors of ten. -/
def Dec.norm : ℤ → ℕ → Dec
  | m, 0 => ⟨m, 0, Or.inl rfl⟩
  | m, e + 1 => if h : m % 10 = 0 then Dec.norm (m / 10) e else ⟨m, e + 1, Or.inr h⟩

/-- The decimal value zero (the default used by `new_signal.get(..., 0)`). -/
def Dec.zero : Dec := ⟨0, 0, Or.inl rfl⟩

/-- Rational value denoted by a `Dec`. -/
def Dec.toRat (a : Dec) : ℚ := (a.num : ℚ) / 10 ^ a.exp

/-- The detector's numeric comparison `abs(x - y) < 0.0001` (line 84 and
line 89 of the source) on the *exact decimal values*, computed by clearing
denominators: `|x - y| < 1/10^4` iff
`|num x * 10^exp y - num y * 10^exp x| * 10^4 < 10^(exp x + exp y)`.
This is an idealization of the program's binary64 arithmetic; the two
agree whenever the exact difference is not within one rounding step of
the 1e-4 boundary (in particular at equal values and at the differences
of 0.00002 and 0.00001 arising below), but can differ at a difference of
exactly 0.0001 — the bit-faithful comparison is `nearCellFloat64`,
used for the boundary-sensitive property. -/
def Dec.near (a b : Dec) : Bool :=
  decide ((a.num * 10 ^ b.exp - b.num * 10 ^ a.exp).natAbs * 10 ^ 4 < 10 ^ (a.exp + b.exp))

/-- Exact decimal addition (used only to state tolerance-boundary
properties about entries shifted by a given decimal amount). -/
def Dec.add (a b : Dec) : Dec :=
  Dec.norm (a.num * 10 ^ b.exp + b.num * 10 ^ a.exp) (a.exp + b.exp)

/-! ## Character classes and low-level scanning helpers

These embed the character classes of the source's regular expressions:
`[A-Z0-9]`, `\d` (ASCII digits; the messages are ASCII), `\s`
(Python `[ \t\n\r\f\v]`), and `\w` (`[A-Za-z0-9_]`). -/

/-- Python regex class `[A-Z0-9]` (the symbol-token class, line 54). -/
def isUpperDigit (c : Char) : Bool := ('A' ≤ c && c ≤ 'Z') || c.isDigit

/-- Python regex class `\s`. -/
def isPySpace (c : Char) : Bool :=
  c = ' ' || c = '\t' || c = '\n' || c = '\r' || c = '\x0b' || c = '\x0c'

/-- Python regex class `\w` (word character, used by the boundary `\b`). -/
def isPyWord (c : Char) : Bool := c.isAlphanum || c = '_'

/-- Does `pat` occur literally at the head of `cs`? -/
def listStartsWith : List Char → List Char → Bool
  | [], _ => true
  | _ :: _, [] => false
  | p :: ps, c :: cs => p == c && listStartsWith ps cs

/-- Numeric value of a digit string (fold used by `float(...)` on the
captured groups). -/
def digitsToNat (l : List Char) : ℕ := l.foldl (fun n c => 10 * n + (c.toNat - 48)) 0

/-- Value of a matched decimal literal `d1 . d2`, i.e. `float(group)`
modelled exactly. -/
def decimalToDec (d1 d2 : List Char) : Dec :=
  Dec.norm ((digitsToNat d1 * 10 ^ d2.length + digitsToNat d2 : ℕ) : ℤ) d2.length

/-- Python `str.capitalize()` (applied to the matched direction,
line 60): first character upper-cased, the rest lower-cased. -/
def pyCapitalize (s : String) : String :=
  match s.toList with
  | [] => ""
  | c :: rest => String.mk (c.toUpper :: rest.map Char.toLower)

/-! ## The five pattern matchers of `parse_signal` (lines 52-74)

Each `re.search`/`re.findall` is embedded as a leftmost scan.  For all
five concrete patterns, greedy backtracking is forced: every starred or
counted class is followed by a literal that the class excludes, so the
only candidate split is the maximal run, and a failure at one start
position cannot be rescued by backtracking — only by advancing the start,
which the scanners do character by character just as the engine does. -/

/-- Attempt of `#([A-Z0-9]+)[^\s/]*/USDT` at a position whose `#` has
just been consumed; returns capture group 1.  Group 1 is the maximal
`[A-Z0-9]` run (nonempty), then `[^\s/]*` necessarily extends to the
next `/`, whitespace, or end of input, where the literal `/USDT` must
stand. -/
def matchSymbolAfterHash (cs : List Char) : Option String :=
  let run := cs.takeWhile isUpperDigit
  if run.isEmpty then none
  else
    let rest := (cs.dropWhile isUpperDigit).dropWhile (fun c => !isPySpace c && !(c == '/'))
    if listStartsWith ('/' :: 'U' :: 'S' :: 'D' :: 'T' :: []) rest then some (String.mk run)
    else none

/-- `re.search(r"#([A-Z0-9]+)[^\s/]*/USDT", text)`, returning group 1 of
the leftmost match (line 54). -/
def searchSymbol : List Char → Option String
  | [] => none
  | '#' :: rest =>
    match matchSymbolAfterHash rest with
    | some s => some s
    | none => searchSymbol rest
  | _ :: rest => searchSymbol rest

/-- Word-boundary `\b` after a matched alternative: next character absent
or not a word character. -/
def boundaryAfter : List Char → Bool
  | [] => true
  | c :: _ => !isPyWord c

/-- Attempt of `(Long|Short)\b` (case-insensitive) at the current
position; the preceding `\b` is checked by the caller.  Returns the
matched text. -/
def matchDirectionHere (cs : List Char) : Option String :=
  if (cs.take 4).map Char.toLower = ['l', 'o', 'n', 'g'] && boundaryAfter (cs.drop 4) then
    some (String.mk (cs.take 4))
  else if (cs.take 5).map Char.toLower = ['s', 'h', 'o', 'r', 't'] && boundaryAfter (cs.drop 5) then
    some (String.mk (cs.take 5))
  else none

/-- Leftmost scan for `\b(Long|Short)\b` with `re.IGNORECASE` (line 58);
`prev` is the character before the current position (for `\b`). -/
def searchDirectionAux (prev : Option Char) : List Char → Option String
  | [] => none
  | c :: rest =>
    if (match prev with | none => true | some p => !isPyWord p) then
      match matchDirectionHere (c :: rest) with
      | some s => some s
      | none => searchDirectionAux (some c) rest
    else searchDirectionAux (some c) rest

/-- `re.search(r"\b(Long|Short)\b", text, re.IGNORECASE)` returning the
matched group (line 58). -/
def searchDirection (cs : List Char) : Option String := searchDirectionAux none cs

/-- Attempt of `\d+\.\d+` at the current position: maximal digit run,
a dot, maximal digit run (both runs nonempty, as forced by the literals
that follow in every enclosing pattern).  Returns the value and the
remaining input. -/
def matchDecimal (cs : List Char) : Option (Dec × List Char) :=
  let d1 := cs.takeWhile Char.isDigit
  match cs.dropWhile Char.isDigit with
  | '.' :: r2 =>
    if d1.isEmpty then none
    else
      let d2 := r2.takeWhile Char.isDigit
      if d2.isEmpty then none
      else some (decimalToDec d1 d2, r2.dropWhile Char.isDigit)
  | _ => none

/-- Attempt of `[^0-9]{0,10}(\d+\.\d+)` right after a matched label:
the counted class is forced to the maximal non-digit run, which must not
exceed 10 characters. -/
def matchNumberAfterLabel (cs : List Char) : Option Dec :=
  if (cs.takeWhile (fun c => !c.isDigit)).length ≤ 10 then
    (matchDecimal (cs.dropWhile (fun c => !c.isDigit))).map (·.1)
  else none

/-- Leftmost scan for `<label>[^0-9]{0,10}(\d+\.\d+)` returning
`float(group 1)`; used with label `Entry` (line 62) and `Price`
(line 70). -/
def searchLabeledNumber (label : List Char) : List Char → Option Dec
  | [] => none
  | c :: rest =>
    if listStartsWith label (c :: rest) then
      match matchNumberAfterLabel ((c :: rest).drop label.length) with
      | some q => some q
      | none => searchLabeledNumber label rest
    else searchLabeledNumber label rest

/-- The literal tail `% of profit)` of the take-profit pattern. -/
def tpTail : List Char := ('%' :: ' ' :: 'o' :: 'f' :: ' ' :: 'p' :: 'r' :: 'o' :: 'f' :: 'i' :: 't' :: ')' :: [])

/-- Attempt of `(\d+\.\d+)\s*\((\d+)% of profit\)` at the current
position; returns (group 2 digits, `float(group 1)`, input after the
match). -/
def matchTpAt (cs : List Char) : Option (String × Dec × List Char) :=
  match matchDecimal cs with
  | none => none
  | some (price, r) =>
    match r.dropWhile isPySpace with
    | '(' :: r3 =>
      let pct := r3.takeWhile Char.isDigit
      let r4 := r3.dropWhile Char.isDigit
      if pct.isEmpty then none
      else if listStartsWith tpTail r4 then some (String.mk pct, price, r4.drop tpTail.length)
      else none
    | _ => none

/-- `re.findall` loop for the take-profit pattern (line 66): leftmost
non-overlapping matches, resuming after each match.  The fuel argument
bounds the number of scanning steps; each step either advances one
character or consumes a whole match (at least four characters), so
`cs.length` steps always suffice and the fuel never runs out on the
initial call of `findTps`. -/
def findTpsAux : ℕ → List Char → List (String × Dec)
  | 0, _ => []
  | _, [] => []
  | fuel + 1, c :: rest =>
    match matchTpAt (c :: rest) with
    | some (pct, price, after) => (pct, price) :: findTpsAux fuel after
    | none => findTpsAux fuel rest

/-- All `(price, percent)` matches of
`re.findall(r"(\d+\.\d+)\s*\((\d+)% of profit\)", text)` in order
(line 66), as (percent digits, price value) pairs. -/
def findTps (cs : List Char) : List (String × Dec) := findTpsAux cs.length cs

/-! ## Parsed fields and `parse_signal` -/

/-- A `tp_<percent>` assignment `result[f"tp_{percent}"] = float(price)`
(line 68) into a Python dict, modelled as an insertion-ordered
association list keyed by the percent digit string: an existing key keeps
its position and gets the new value (last wins), a new key is appended. -/
def tpInsert : List (String × Dec) → String → Dec → List (String × Dec)
  | [], k, v => [(k, v)]
  | (k0, v0) :: rest, k, v =>
    if k0 == k then (k0, v) :: rest else (k0, v0) :: tpInsert rest k v

/-- Dict lookup for a `tp_<percent>` key. -/
def tpLookup (m : List (String × Dec)) (k : String) : Option Dec :=
  (m.find? (fun p => p.1 == k)).map (·.2)

/-- The mapping returned by `parse_signal` (lines 52-74).  A field absent
from the Python dict is `none`; the take-profit levels sit in `tps` keyed
by their percent digit string (the dict keys `tp_<percent>`). -/
structure ParsedFields where
  symbol : Option String := none
  direction : Option String := none
  entry : Option Dec := none
  tps : List (String × Dec) := []
  hit_price : Option Dec := none
deriving DecidableEq, Repr

/-- `parse_signal(text)` (lines 52-74): the five independent extraction
rules.  `symbol` is group 1 plus the literal `"/USDT"` (line 56),
`direction` is the capitalized match (line 60), the take-profit matches
are inserted left to right with last-wins on duplicate percents
(lines 66-68). -/
def parse_signal (text : String) : ParsedFields :=
  let cs := text.toList
  { symbol := (searchSymbol cs).map (fun g => g ++ "/USDT")
    direction := (searchDirection cs).map pyCapitalize
    entry := searchLabeledNumber ('E' :: 'n' :: 't' :: 'r' :: 'y' :: []) cs
    tps := (findTps cs).foldl (fun m kv => tpInsert m kv.1 kv.2) []
    hit_price := searchLabeledNumber ('P' :: 'r' :: 'i' :: 'c' :: 'e' :: []) cs }

/-- A raw fetched message: text plus timestamp in seconds (the source
keeps ISO-8601 strings and converts with `pd.to_datetime`). -/
structure RawMessage where
  text : String
  timestamp : ℤ
deriving DecidableEq, Repr

/-- A parsed message after `parsed["timestamp"] = msg["timestamp"]`
(line 102): the dict handed to classification and duplicate check. -/
structure Candidate where
  fields : ParsedFields
  timestamp : ℤ
deriving DecidableEq, Repr

/-! ## Dataset rows and the duplicate detector -/

/-- One row of the persisted dataset (`telegram_signals_clean.csv`), with
the store's columns `symbol, direction, entry, tp_40, tp_60, tp_80,
tp_100, timestamp` plus the `hit_price` column a run adds when an
accepted signal message also matched the `Price` pattern.  A `none` field
is a NaN cell; every pandas comparison against NaN is false. -/
structure Row where
  symbol : Option String
  direction : Option String
  entry : Option Dec
  tp_40 : Option Dec
  tp_60 : Option Dec
  tp_80 : Option Dec
  tp_100 : Option Dec
  hit_price : Option Dec
  timestamp : ℤ
deriving DecidableEq, Repr

/-- Elementwise pandas equality of a column cell against
`new_signal.get(...)`: true only when both sides are actual values and
equal (`NaN == x`, `x == None` and `NaN == None` are all false). -/
def optStrEq : Option String → Option String → Bool
  | some a, some b => a == b
  | _, _ => false

/-- Elementwise `abs(column - value) < 0.0001` against a cell: false on a
NaN cell. -/
def nearCell : Option Dec → Dec → Bool
  | some e, v => e.near v
  | none, _ => false

/-- One iteration of the take-profit refinement loop (lines 87-89):
`if tp in new_signal: filtered = filtered[abs(filtered[tp] - new_signal.get(tp, 0)) < 0.0001]`. -/
def tpFilterStep (c : Candidate) (k : String) (get : Row → Option Dec) (l : List Row) : List Row :=
  match tpLookup c.fields.tps k with
  | some v => l.filter (fun r => nearCell (get r) v)
  | none => l

/-- `is_duplicate_signal(new_signal, existing_df, time_tolerance_minutes=60)`
(lines 77-90): false on an empty history, otherwise filter on symbol,
direction, entry (an absent candidate entry defaults to 0), timestamp
within the tolerance window, then refine by each of the four canonical
take-profit fields present in the candidate; duplicate iff a row
survives. -/
def is_duplicate_signal (new_signal : Candidate) (existing_df : List Row) (tol : ℤ := 60) : Bool :=
  if existing_df.isEmpty then false
  else
    let filtered := existing_df.filter (fun r =>
      optStrEq r.symbol new_signal.fields.symbol &&
      optStrEq r.direction new_signal.fields.direction &&
      nearCell r.entry (new_signal.fields.entry.getD Dec.zero) &&
      decide (|r.timestamp - new_signal.timestamp| ≤ tol * 60))
    let filtered := tpFilterStep new_signal "40" Row.tp_40 filtered
    let filtered := tpFilterStep new_signal "60" Row.tp_60 filtered
    let filtered := tpFilterStep new_signal "80" Row.tp_80 filtered
    let filtered := tpFilterStep new_signal "100" Row.tp_100 filtered
    !filtered.isEmpty

/-! ## Classification and the pipeline driver (`main`, lines 93-129) -/

/-- The three routes of the classification in `main`. -/
inductive Category where
  | NewSignal
  | Update
  | Unclassified
deriving DecidableEq, Repr

/-- The inline classifier of `main` (lines 107-112): new signal iff an
entry and at least one `tp_` key are present (checked first), update iff
a symbol and a hit price are present without an entry, otherwise
unclassified.  The `timestamp` key added at line 102 matches none of the
tested keys (`"timestamp"` does not start with `"tp_"`). -/
def classify (p : ParsedFields) : Category :=
  if p.entry.isSome && !p.tps.isEmpty then .NewSignal
  else if p.symbol.isSome && p.entry.isNone && p.hit_price.isSome then .Update
  else .Unclassified

/-- The routing loop of `main` (lines 99-113): parse each raw message,
attach its timestamp, and append it to `signal_data` (new signals that
are not duplicates of the pre-run history), `update_data`, or `others`.
A new signal flagged as duplicate is appended nowhere. -/
def routeMessages (existing : List Row) : List RawMessage → List Candidate × List Candidate × List Candidate
  | [] => ([], [], [])
  | m :: rest =>
    let c : Candidate := ⟨parse_signal m.text, m.timestamp⟩
    let (s, u, o) := routeMessages existing rest
    match classify c.fields with
    | .NewSignal => if is_duplicate_signal c existing then (s, u, o) else (c :: s, u, o)
    | .Update => (s, c :: u, o)
    | .Unclassified => (s, u, c :: o)

/-- Does the candidate row survive
`dropna(subset=["symbol", "entry", "tp_40", "tp_60", "tp_80", "tp_100"])`
(line 116)? -/
def candidateComplete (c : Candidate) : Bool :=
  c.fields.symbol.isSome && c.fields.entry.isSome &&
  (tpLookup c.fields.tps "40").isSome && (tpLookup c.fields.tps "60").isSome &&
  (tpLookup c.fields.tps "80").isSome && (tpLookup c.fields.tps "100").isSome

/-- Do all six columns named in the `dropna` subset exist in
`pd.DataFrame(signal_data)`?  The frame's columns are the union of the
dict keys of the accepted records, so a column exists iff some record
carries the key; on a missing label `dropna(subset=...)` raises
`KeyError` and the run dies (line 116). -/
def subsetColumnsExist (sd : List Candidate) : Bool :=
  sd.any (fun c => c.fields.symbol.isSome) && sd.any (fun c => c.fields.entry.isSome) &&
  sd.any (fun c => (tpLookup c.fields.tps "40").isSome) &&
  sd.any (fun c => (tpLookup c.fields.tps "60").isSome) &&
  sd.any (fun c => (tpLookup c.fields.tps "80").isSome) &&
  sd.any (fun c => (tpLookup c.fields.tps "100").isSome)

/-- `df_signals['symbol'].str.replace("/", "").str.upper()` (line 118):
drop slashes, upper-case (the parsed symbols are ASCII). -/
def normalizeSymbol (s : String) : String :=
  String.mk ((s.toList.filter (fun c => !(c == '/'))).map Char.toUpper)

/-- A surviving accepted record as a dataset row, with the symbol
normalization of line 118 applied; the four canonical take-profit
columns take their values from the record's `tp_` keys. -/
def toRow (c : Candidate) : Row :=
  { symbol := c.fields.symbol.map normalizeSymbol
    direction := c.fields.direction
    entry := c.fields.entry
    tp_40 := tpLookup c.fields.tps "40"
    tp_60 := tpLookup c.fields.tps "60"
    tp_80 := tpLookup c.fields.tps "80"
    tp_100 := tpLookup c.fields.tps "100"
    hit_price := c.fields.hit_price
    timestamp := c.timestamp }

/-- `pd.concat(...).drop_duplicates()` keeps the first occurrence of each
full-row value (line 124). -/
def dropDupAux (seen : List Row) : List Row → List Row
  | [] => []
  | r :: rest => if r ∈ seen then dropDupAux seen rest else r :: dropDupAux (r :: seen) rest

/-- Exact full-row deduplication, first occurrence kept. -/
def dropDuplicatesKeepFirst (l : List Row) : List Row := dropDupAux [] l

/-- Outcome of one run of `main` past message collection: either the
dataset store is overwritten with `store` (line 126) after writing
`backup` when a prior dataset existed (lines 122-123), or the run dies
with the uncaught `KeyError` of `dropna(subset=...)` on a missing column
(line 116), leaving the store and backup untouched. -/
inductive RunOutcome where
  | written (store : List Row) (backup : Option (List Row))
  | aborted
deriving DecidableEq, Repr

/-- The processing stages of `main` (lines 99-126) after the fetch:
route the parsed messages against the pre-run history (`prior = none`
models a missing `telegram_signals_clean.csv`, giving an empty history
and no merge), drop incomplete accepted records, normalize, and either
write the new rows alone or back up the prior dataset and write the
exact-row-deduplicated concatenation. -/
def runPipeline (prior : Option (List Row)) (msgs : List RawMessage) : RunOutcome :=
  let signal_data := (routeMessages (prior.getD []) msgs).1
  if subsetColumnsExist signal_data then
    let newRows := (signal_data.filter candidateComplete).map toRow
    match prior with
    | some existing => .written (dropDuplicatesKeepFirst (existing ++ newRows)) (some existing)
    | none => .written newRows none
  else .aborted

/-! ## The backup serialization layer (lines 26-28 and 122-123)

The backup file is written by `existing_signals.to_csv(backup_path)`,
where `existing_signals = pd.read_csv(signals_csv)`: the backup is the
*re-serialization of the parsed pre-run content*, not a byte copy.  The
round trip is modelled cell by cell (the store's columns are homogeneous,
so `read_csv` column dtype inference acts per cell here): a cell of the
decimal form `\d+\.\d+` is parsed to a float and re-rendered by `to_csv`
in canonical shortest decimal form; any other cell (symbol strings,
timestamps, integer cells, empty NaN cells) round-trips verbatim. -/

/-- `read_csv` numeric parsing of one cell: a cell that is entirely a
decimal literal `\d+\.\d+` becomes a float (modelled exactly); anything
else is left to round-trip verbatim. -/
def parseDecimalCell (s : String) : Option Dec :=
  match matchDecimal s.toList with
  | some (q, []) => some q
  | _ => none

/-- Left-pad a digit string with zeros to width `k`. -/
def padZeros (k : ℕ) (s : List Char) : List Char :=
  List.replicate (k - s.length) '0' ++ s

/-- `to_csv` rendering of a float: shortest decimal form with at least
one fractional digit (`str(1.0) = "1.0"`, `str(1.1) = "1.1"`); on the
canonical `Dec` representation the fractional digits are exactly the
mantissa's last `exp` digits. -/
def renderDecimalCell (d : Dec) : String :=
  if d.exp = 0 then Nat.repr d.num.toNat ++ ".0"
  else
    Nat.repr (d.num.toNat / 10 ^ d.exp) ++ "." ++
      String.mk (padZeros d.exp (Nat.repr (d.num.toNat % 10 ^ d.exp)).toList)

/-- What the backup write (line 123) does to one stored cell:
`to_csv(read_csv(cell))`. -/
def backupCell (s : String) : String :=
  match parseDecimalCell s with
  | some q => renderDecimalCell q
  | none => s

/-- The full backup artifact content produced from the pre-run dataset
store content (as rows of cells). -/
def backupContent (store : List (List String)) : List (List String) :=
  store.map (fun row => row.map backupCell)

/-! ## Auxiliary notions used to state the claims -/

/-- A candidate viewed as a history row carrying the same field values
(the `x` of the reflexivity property `is_duplicate(x, [x])`). -/
def candidateAsRow (c : Candidate) : Row :=
  { symbol := c.fields.symbol
    direction := c.fields.direction
    entry := c.fields.entry
    tp_40 := tpLookup c.fields.tps "40"
    tp_60 := tpLookup c.fields.tps "60"
    tp_80 := tpLookup c.fields.tps "80"
    tp_100 := tpLookup c.fields.tps "100"
    hit_price := c.fields.hit_price
    timestamp := c.timestamp }

/-- The persistence invariant: none of the six required cells is
missing. -/
def rowComplete (r : Row) : Prop :=
  r.symbol.isSome ∧ r.entry.isSome ∧ r.tp_40.isSome ∧ r.tp_60.isSome ∧
    r.tp_80.isSome ∧ r.tp_100.isSome

/-- A fully populated concrete candidate used to instantiate the
universally quantified detector properties. -/
def wfCand : Candidate :=
  { fields :=
      { symbol := some "BTCUSDT"
        direction := some "Long"
        entry := some ⟨1, 0, Or.inl rfl⟩
        tps := [("40", ⟨2, 0, Or.inl rfl⟩), ("60", ⟨3, 0, Or.inl rfl⟩),
                ("80", ⟨4, 0, Or.inl rfl⟩), ("100", ⟨5, 0, Or.inl rfl⟩)]
        hit_price := none }
    timestamp := 0 }

/-- Signal message text of the concrete two-run scenario. -/
def scenarioText1 : String :=
  "#BTC/USDT Long Entry 1.0 2.0 (40% of profit) 3.0 (60% of profit) 4.0 (80% of profit) 5.0 (100% of profit)"

/-- The same signal refetched with its entry price differing by 0.00002. -/
def scenarioText2 : String :=
  "#BTC/USDT Long Entry 1.00002 2.0 (40% of profit) 3.0 (60% of profit) 4.0 (80% of profit) 5.0 (100% of profit)"

/-- The dataset row the first run persists for `scenarioText1` (symbol
normalized to `BTCUSDT`). -/
def scenarioRow1 : Row :=
  { symbol := some "BTCUSDT", direction := some "Long", entry := some ⟨1, 0, Or.inl rfl⟩
    tp_40 := some ⟨2, 0, Or.inl rfl⟩, tp_60 := some ⟨3, 0, Or.inl rfl⟩
    tp_80 := some ⟨4, 0, Or.inl rfl⟩, tp_100 := some ⟨5, 0, Or.inl rfl⟩
    hit_price := none, timestamp := 0 }

/-- The second row the second run appends for the refetched variant
(entry 1.00002, thirty minutes later). -/
def scenarioRow2 : Row :=
  { symbol := some "BTCUSDT", direction := some "Long"
    entry := some ⟨100002, 5, Or.inr (by decide)⟩
    tp_40 := some ⟨2, 0, Or.inl rfl⟩, tp_60 := some ⟨3, 0, Or.inl rfl⟩
    tp_80 := some ⟨4, 0, Or.inl rfl⟩, tp_100 := some ⟨5, 0, Or.inl rfl⟩
    hit_price := none, timestamp := 1800 }

/-! ## Bit-faithful binary64 semantics of the tolerance comparison

The program computes `abs(x - y) < 0.0001` (lines 84 and 89) in IEEE-754
binary64.  Every finite nonnegative double is an integer multiple of
`2^-1074`, so a double value is represented here exactly as the natural
number `value * 2^1074`; parsing a decimal literal and subtracting are
embedded as exact rational arithmetic followed by round-to-nearest,
ties-to-even onto that grid, and `<` on doubles is exact comparison.
(The extractor only ever produces nonnegative values, and all of them lie
far inside the normal range, which this model covers; zero and the
subnormal grid are handled by the saturating `i - 52`.) -/

/-- Round the nonnegative rational `a / b` — already scaled by `2^1074` —
to the nearest binary64 value (ties to even), returned on the same scale.
The binade index `i` satisfies `2^i ≤ a/b < 2^(i+1)`; the representable
grid spacing there is `2^(i-52)` (saturating to 1 on the subnormal
range). -/
def roundFloat64 (a b : ℕ) : ℕ :=
  match (List.range 2200).find? (fun i => decide (b * 2 ^ i ≤ a) && decide (a < b * 2 ^ (i + 1))) with
  | none => 0
  | some i =>
    let s := 2 ^ (i - 52)
    let D := b * s
    let q := a / D
    let r := a % D
    (if 2 * r < D then q else if D < 2 * r then q + 1 else if q % 2 = 0 then q else q + 1) * s

/-- `float("<n> . <k digits>")`: the decimal value `n / 10^k` rounded to
binary64, on the `2^1074` scale. -/
def floatOfDecimal (n k : ℕ) : ℕ :=
  roundFloat64 (n * 2 ^ 1074) (10 ^ k)

/-- The binary64 value the program actually holds for a parsed decimal
(the extractor's parsed values are nonnegative). -/
def Dec.toFloat64 (d : Dec) : ℕ :=
  floatOfDecimal d.num.toNat d.exp

/-- `abs(x - y)` on binary64 values: the exact difference (itself on the
`2^-1074` grid) rounded back to a representable double; taking the
absolute value first is exact since rounding is symmetric. -/
def floatAbsSub (x y : ℕ) : ℕ :=
  roundFloat64 (if x ≤ y then y - x else x - y) 1

/-- Line 84 / line 89 comparison against a cell under bit-faithful
binary64 semantics: `abs(cell - value) < 0.0001`, false on a NaN cell. -/
def nearCellFloat64 : Option Dec → Dec → Bool
  | some e, v => decide (floatAbsSub e.toFloat64 v.toFloat64 < floatOfDecimal 1 4)
  | none, _ => false

/-- The take-profit refinement loop (lines 87-89) under binary64
comparison semantics. -/
def tpFilterStepFloat64 (c : Candidate) (k : String) (get : Row → Option Dec) (l : List Row) :
    List Row :=
  match tpLookup c.fields.tps k with
  | some v => l.filter (fun r => nearCellFloat64 (get r) v)
  | none => l

/-- `is_duplicate_signal` (lines 77-90) with its numeric comparisons
given their bit-faithful binary64 semantics; it differs from
`is_duplicate_signal` only where an exact difference sits within one
rounding step of the 1e-4 boundary. -/
def is_duplicate_signal_float64 (new_signal : Candidate) (existing_df : List Row)
    (tol : ℤ := 60) : Bool :=
  if existing_df.isEmpty then false
  else
    let filtered := existing_df.filter (fun r =>
      optStrEq r.symbol new_signal.fields.symbol &&
      optStrEq r.direction new_signal.fields.direction &&
      nearCellFloat64 r.entry (new_signal.fields.entry.getD Dec.zero) &&
      decide (|r.timestamp - new_signal.timestamp| ≤ tol * 60))
    let filtered := tpFilterStepFloat64 new_signal "40" Row.tp_40 filtered
    let filtered := tpFilterStepFloat64 new_signal "60" Row.tp_60 filtered
    let filtered := tpFilterStepFloat64 new_signal "80" Row.tp_80 filtered
    let filtered := tpFilterStepFloat64 new_signal "100" Row.tp_100 filtered
    !filtered.isEmpty

/-- The concrete candidate with entry 2.0 (used to show the boundary
outcome is value-dependent). -/
def wfCand2 : Candidate :=
  { wfCand with fields := { wfCand.fields with entry := some ⟨2, 0, Or.inl rfl⟩ } }

/-! ## Properties of the exact decimal arithmetic -/

theorem Dec.norm_toRat (m : ℤ) (e : ℕ) : (Dec.norm m e).toRat = (m : ℚ) / 10 ^ e := by
  induction e generalizing m with
  | zero => simp [Dec.norm, Dec.toRat]
  | succ e ih =>
    rw [Dec.norm]
    split
    · rename_i h
      rw [ih]
      have hdvd : (10 : ℤ) ∣ m := Int.dvd_of_emod_eq_zero h
      obtain ⟨k, rfl⟩ := hdvd
      rw [Int.mul_ediv_cancel_left k (by norm_num)]
      push_cast
      rw [pow_succ]
      field_simp
      ring
    · simp [Dec.toRat]

theorem Dec.add_toRat (a b : Dec) : (a.add b).toRat = a.toRat + b.toRat := by
  rw [Dec.add, Dec.norm_toRat, Dec.toRat, Dec.toRat]
  push_cast
  rw [pow_add]
  have ha : ((10 : ℚ) ^ a.exp) ≠ 0 := by positivity
  have hb : ((10 : ℚ) ^ b.exp) ≠ 0 := by positivity
  field_simp

theorem Dec.near_iff (a b : Dec) : a.near b = true ↔ |a.toRat - b.toRat| < 1 / 10 ^ 4 := by
  rw [Dec.near, decide_eq_true_eq]
  have hD : (0 : ℚ) < 10 ^ (a.exp + b.exp) := by positivity
  have hsub : a.toRat - b.toRat
      = ((a.num : ℚ) * 10 ^ b.exp - (b.num : ℚ) * 10 ^ a.exp) / 10 ^ (a.exp + b.exp) := by
    rw [Dec.toRat, Dec.toRat, pow_add]
    have h1 : ((10 : ℚ) ^ a.exp) ≠ 0 := by positivity
    have h2 : ((10 : ℚ) ^ b.exp) ≠ 0 := by positivity
    field_simp
    ring
  rw [hsub, abs_div, abs_of_pos hD, div_lt_div_iff₀ hD (by positivity), one_mul]
  rw [show |(a.num : ℚ) * 10 ^ b.exp - (b.num : ℚ) * 10 ^ a.exp|
      = ((a.num * 10 ^ b.exp - b.num * 10 ^ a.exp).natAbs : ℚ) from by
    rw [Int.cast_natAbs]; push_cast; ring_nf]
  exact_mod_cast Iff.rfl

theorem Dec.near_self (a : Dec) : a.near a = true := by
  rw [Dec.near_iff, sub_self, abs_zero]
  norm_num

theorem Dec.zero_toRat : Dec.zero.toRat = 0 := by
  simp [Dec.zero, Dec.toRat]

/-! ## Helper lemmas about the pipeline pieces -/

theorem mem_of_mem_dropDupAux :
    ∀ (l seen : List Row) (r : Row), r ∈ dropDupAux seen l → r ∈ l := by
  intro l
  induction l with
  | nil => intro seen r h; simp [dropDupAux] at h
  | cons a t ih =>
    intro seen r h
    simp only [dropDupAux] at h
    split at h
    · exact List.mem_cons_of_mem _ (ih _ _ h)
    · rcases List.mem_cons.mp h with h1 | h2
      · exact h1 ▸ List.mem_cons_self _ _
      · exact List.mem_cons_of_mem _ (ih _ _ h2)

theorem rowComplete_toRow (c : Candidate) (h : candidateComplete c = true) :
    rowComplete (toRow c) := by
  simp only [candidateComplete, Bool.and_eq_true] at h
  obtain ⟨⟨⟨⟨⟨h1, h2⟩, h3⟩, h4⟩, h5⟩, h6⟩ := h
  exact ⟨by simpa [toRow] using h1, h2, h3, h4, h5, h6⟩

theorem map_self_iff {α : Type} (f : α → α) (l : List α) :
    l.map f = l ↔ ∀ x ∈ l, f x = x := by
  induction l with
  | nil => simp
  | cons a t ih =>
    simp only [List.map_cons, List.cons.injEq, ih, List.mem_cons]
    constructor
    · rintro ⟨h1, h2⟩ x (rfl | hx)
      · exact h1
      · exact h2 x hx
    · intro h
      exact ⟨h a (Or.inl rfl), fun x hx => h x (Or.inr hx)⟩

/-! ## The claims -/

/-- C9: the Field Parser is total — `parse_signal` is a Lean function, so
it returns a mapping on every input string without raising — and on a
text in which none of the five patterns occurs (no symbol, direction,
entry, take-profit, or hit-price match) it returns the empty mapping. -/
theorem parse_signal_total_empty_on_no_patterns (text : String)
    (h1 : searchSymbol text.toList = none)
    (h2 : searchDirection text.toList = none)
    (h3 : searchLabeledNumber ('E' :: 'n' :: 't' :: 'r' :: 'y' :: []) text.toList = none)
    (h4 : findTps text.toList = [])
    (h5 : searchLabeledNumber ('P' :: 'r' :: 'i' :: 'c' :: 'e' :: []) text.toList = none) :
    parse_signal text = {} := by
  simp only [parse_signal]
  rw [h1, h2, h3, h4, h5]
  rfl

/-- Witness for C9 at the patternless text `"zzz"`. -/
theorem parse_signal_total_empty_on_no_patterns_witness : parse_signal "zzz" = {} :=
  parse_signal_total_empty_on_no_patterns "zzz" (by decide) (by decide) (by decide)
    (by decide) (by decide)

/-- C10: a run that accepts zero new-signal records builds
`pd.DataFrame([])` with no columns, so the `dropna(subset=[...])` of
line 116 (and the symbol normalization of line 118 after it) hits absent
columns and raises, aborting the run before any merge: the dataset store
is not rewritten. -/
theorem zero_accepted_aborts_run (prior : Option (List Row)) (msgs : List RawMessage)
    (h : (routeMessages (prior.getD []) msgs).1 = []) :
    runPipeline prior msgs = .aborted := by
  unfold runPipeline
  rw [h]
  simp [subsetColumnsExist]

/-- Witness for C10: a run with no fetched messages aborts. -/
theorem zero_accepted_aborts_run_witness : runPipeline none [] = .aborted :=
  zero_accepted_aborts_run none [] rfl

/-- C3: the classifier is total and deterministic (it is a function into
the three categories) and the three categories are characterized exactly:
new signal iff an entry and some `tp_` field are present, update iff a
symbol and a hit price are present and the entry is absent, unclassified
otherwise.  The stated NewSignal-before-Update priority is subsumed: a
mapping satisfying the NewSignal condition is classified NewSignal
unconditionally (the two conditions are in fact mutually exclusive, since
one demands an entry and the other its absence). -/
theorem classify_total_characterized (p : ParsedFields) :
    (classify p = .NewSignal ↔ p.entry.isSome ∧ p.tps ≠ []) ∧
    (classify p = .Update ↔ p.symbol.isSome ∧ p.entry = none ∧ p.hit_price.isSome) ∧
    (classify p = .Unclassified ↔
      ¬(p.entry.isSome ∧ p.tps ≠ []) ∧
      ¬(p.symbol.isSome ∧ p.entry = none ∧ p.hit_price.isSome)) := by
  have hN : ((p.entry.isSome && !p.tps.isEmpty) = true)
      ↔ (p.entry.isSome = true ∧ p.tps ≠ []) := by
    simp [List.isEmpty_iff, Bool.eq_false_iff]
  have hU : ((p.symbol.isSome && p.entry.isNone && p.hit_price.isSome) = true)
      ↔ (p.symbol.isSome = true ∧ p.entry = none ∧ p.hit_price.isSome = true) := by
    simp [and_assoc, Option.isNone_iff_eq_none]
  unfold classify
  split_ifs with h1 h2
  · obtain ⟨he, ht⟩ := hN.mp h1
    have hne : p.entry ≠ none := fun hn => by rw [hn] at he; simp at he
    exact ⟨by simp [he, ht], by simp [hne], by simp [he, ht]⟩
  · obtain ⟨hs, hn, hh⟩ := hU.mp h2
    exact ⟨by simp [hn], by simp [hs, hn, hh], by simp [hs, hn, hh]⟩
  · have hnN : ¬(p.entry.isSome = true ∧ p.tps ≠ []) := fun h => h1 (hN.mpr h)
    have hnU : ¬(p.symbol.isSome = true ∧ p.entry = none ∧ p.hit_price.isSome = true) :=
      fun h => h2 (hU.mpr h)
    exact ⟨iff_of_false (by simp) hnN, iff_of_false (by simp) hnU, iff_of_true rfl ⟨hnN, hnU⟩⟩

theorem tpFilterStep_nil (c : Candidate) (k : String) (get : Row → Option Dec) :
    tpFilterStep c k get [] = [] := by
  rcases h : tpLookup c.fields.tps k with _ | v <;> simp [tpFilterStep, h]

theorem tpFilterStep_self (c : Candidate) (k : String) (get : Row → Option Dec) (r : Row)
    (hget : get r = tpLookup c.fields.tps k) :
    tpFilterStep c k get [r] = [r] := by
  rcases h : tpLookup c.fields.tps k with _ | v
  · simp [tpFilterStep, h]
  · simp [tpFilterStep, h, List.filter, hget, nearCell, Dec.near_self]

/-- C2: the Duplicate Detector returns false on every candidate against
an empty history, and flags every well-formed candidate (symbol,
direction, entry, timestamp and take-profit fields present) as a
duplicate of a history consisting of exactly that candidate's own row. -/
theorem duplicate_detector_empty_false_and_reflexive (c : Candidate) :
    is_duplicate_signal c [] = false ∧
    (c.fields.symbol.isSome = true → c.fields.direction.isSome = true →
     c.fields.entry.isSome = true →
     (tpLookup c.fields.tps "40").isSome = true → (tpLookup c.fields.tps "60").isSome = true →
     (tpLookup c.fields.tps "80").isSome = true → (tpLookup c.fields.tps "100").isSome = true →
     is_duplicate_signal c [candidateAsRow c] = true) := by
  constructor
  · rfl
  · intro hs hd he h40 h60 h80 h100
    obtain ⟨s, hs⟩ := Option.isSome_iff_exists.mp hs
    obtain ⟨d, hd⟩ := Option.isSome_iff_exists.mp hd
    obtain ⟨e, he⟩ := Option.isSome_iff_exists.mp he
    simp only [is_duplicate_signal, candidateAsRow, List.isEmpty_cons, Bool.false_eq_true,
      if_false, List.filter, hs, hd, he, optStrEq, nearCell, Option.getD_some, beq_self_eq_true,
      Bool.and_self, Dec.near_self, sub_self, abs_zero, Bool.true_and, Bool.and_true,
      show decide ((0 : ℤ) ≤ 60 * 60) = true from by decide]
    rw [tpFilterStep_self c "40" Row.tp_40 _ rfl, tpFilterStep_self c "60" Row.tp_60 _ rfl,
      tpFilterStep_self c "80" Row.tp_80 _ rfl, tpFilterStep_self c "100" Row.tp_100 _ rfl]
    rfl

/-- Witness for C2 at a fully populated concrete candidate. -/
theorem duplicate_detector_empty_false_and_reflexive_witness :
    is_duplicate_signal wfCand [] = false ∧
    is_duplicate_signal wfCand [candidateAsRow wfCand] = true :=
  ⟨(duplicate_detector_empty_false_and_reflexive wfCand).1,
   (duplicate_detector_empty_false_and_reflexive wfCand).2 rfl rfl rfl (by decide) (by decide)
     (by decide) (by decide)⟩

set_option maxRecDepth 100000 in
/-- C6 counterexample: the claim "entries differing by exactly 0.0001 are
not flagged" is false of the program.  The comparison of line 84 runs in
binary64: for entries 1.0 and 1.0001 — whose exact values differ by
exactly 1/10^4, first conjunct — the rounded difference is
9.999999999998899e-05, which IS below 1e-4, so the detector flags the
pair (second conjunct, under the bit-faithful comparison semantics). -/
theorem entry_exact_boundary_flagged_in_binary64 :
    (⟨10001, 4, Or.inr (by decide)⟩ : Dec).toRat - (⟨1, 0, Or.inl rfl⟩ : Dec).toRat = 1 / 10 ^ 4 ∧
    is_duplicate_signal_float64 wfCand
      [{candidateAsRow wfCand with entry := some ⟨10001, 4, Or.inr (by decide)⟩}] = true :=
  ⟨by rw [Dec.toRat, Dec.toRat]; norm_num, by decide⟩

set_option maxRecDepth 100000 in
/-- C6 (amended): under the program's binary64 arithmetic, otherwise
identical candidates with entries 1.0 and 1.00005 (difference 0.00005)
are flagged; at a difference of exactly 0.0001 the strict `< 1e-4`
comparison is decided by the operands' rounding and is value-dependent —
1.0 versus 1.0001 is flagged while 2.0 versus 2.0001 is not.  The last
two conjuncts exhibit the line-84 comparison itself at the two boundary
pairs. -/
theorem entry_tolerance_binary64_boundary :
    is_duplicate_signal_float64 wfCand
      [{candidateAsRow wfCand with entry := some ⟨100005, 5, Or.inr (by decide)⟩}] = true ∧
    is_duplicate_signal_float64 wfCand
      [{candidateAsRow wfCand with entry := some ⟨10001, 4, Or.inr (by decide)⟩}] = true ∧
    is_duplicate_signal_float64 wfCand2
      [{candidateAsRow wfCand2 with entry := some ⟨20001, 4, Or.inr (by decide)⟩}] = false ∧
    (floatAbsSub (Dec.toFloat64 ⟨10001, 4, Or.inr (by decide)⟩)
        (Dec.toFloat64 ⟨1, 0, Or.inl rfl⟩) < floatOfDecimal 1 4) = true ∧
    (floatAbsSub (Dec.toFloat64 ⟨20001, 4, Or.inr (by decide)⟩)
        (Dec.toFloat64 ⟨2, 0, Or.inl rfl⟩) < floatOfDecimal 1 4) = false :=
  ⟨by decide, by decide, by decide, by decide, by decide⟩

/-- C7: timestamp tolerance boundary — against a history row identical
to the candidate except for its timestamp, a row exactly
`tolerance_minutes` away is flagged (the comparison is inclusive `<=`)
while a row one second beyond the window is not. -/
theorem timestamp_tolerance_inclusive_boundary (c : Candidate) (tol : ℤ) (htol : 0 ≤ tol)
    (hs : c.fields.symbol.isSome = true) (hd : c.fields.direction.isSome = true)
    (he : c.fields.entry.isSome = true) :
    is_duplicate_signal c
      [{candidateAsRow c with timestamp := c.timestamp + tol * 60}] tol = true ∧
    is_duplicate_signal c
      [{candidateAsRow c with timestamp := c.timestamp + tol * 60 + 1}] tol = false := by
  obtain ⟨s, hs⟩ := Option.isSome_iff_exists.mp hs
  obtain ⟨d, hd⟩ := Option.isSome_iff_exists.mp hd
  obtain ⟨e, he⟩ := Option.isSome_iff_exists.mp he
  have ht1 : decide (|c.timestamp + tol * 60 - c.timestamp| ≤ tol * 60) = true := by
    rw [decide_eq_true_eq, add_sub_cancel_left, abs_of_nonneg (mul_nonneg htol (by norm_num))]
  have ht2 : decide (|c.timestamp + tol * 60 + 1 - c.timestamp| ≤ tol * 60) = false := by
    rw [decide_eq_false_iff_not, show c.timestamp + tol * 60 + 1 - c.timestamp = tol * 60 + 1
      from by ring, abs_of_nonneg (by omega)]
    omega
  constructor
  · simp only [is_duplicate_signal, candidateAsRow, List.isEmpty_cons, Bool.false_eq_true,
      if_false, List.filter, hs, hd, he, optStrEq, nearCell, Option.getD_some, beq_self_eq_true,
      Bool.and_self, Dec.near_self, ht1, Bool.true_and, Bool.and_true]
    rw [tpFilterStep_self c "40" Row.tp_40 _ rfl, tpFilterStep_self c "60" Row.tp_60 _ rfl,
      tpFilterStep_self c "80" Row.tp_80 _ rfl, tpFilterStep_self c "100" Row.tp_100 _ rfl]
    rfl
  · simp only [is_duplicate_signal, candidateAsRow, List.isEmpty_cons, Bool.false_eq_true,
      if_false, List.filter, hs, hd, he, optStrEq, nearCell, Option.getD_some, beq_self_eq_true,
      Bool.and_self, Dec.near_self, ht2, Bool.and_false, Bool.true_and, Bool.and_true,
      tpFilterStep_nil, List.isEmpty_nil, Bool.not_true]

/-- Witness for C7 at the default tolerance of 60 minutes: 3600 seconds
away is flagged, 3601 seconds away is not. -/
theorem timestamp_tolerance_inclusive_boundary_witness :
    is_duplicate_signal wfCand
      [{candidateAsRow wfCand with timestamp := wfCand.timestamp + 60 * 60}] 60 = true ∧
    is_duplicate_signal wfCand
      [{candidateAsRow wfCand with timestamp := wfCand.timestamp + 60 * 60 + 1}] 60 = false :=
  timestamp_tolerance_inclusive_boundary wfCand 60 (by norm_num) rfl rfl rfl

/-- C8: a candidate with no entry field is compared against 0 (the
`new_signal.get("entry", 0)` default), so it is flagged duplicate against
any history row whose entry is within 1e-4 of 0, provided the symbol,
direction and timestamp filters pass and every canonical take-profit
field present in the candidate is within 1e-4 of the row's. -/
theorem missing_entry_compares_against_zero (c : Candidate) (r : Row) (s d : String) (e : Dec)
    (hce : c.fields.entry = none)
    (hcs : c.fields.symbol = some s) (hrs : r.symbol = some s)
    (hcd : c.fields.direction = some d) (hrd : r.direction = some d)
    (hre : r.entry = some e) (hnear : |e.toRat| < 1 / 10 ^ 4)
    (hts : |r.timestamp - c.timestamp| ≤ 60 * 60)
    (h40 : ∀ v, tpLookup c.fields.tps "40" = some v →
      ∃ w, r.tp_40 = some w ∧ |w.toRat - v.toRat| < 1 / 10 ^ 4)
    (h60 : ∀ v, tpLookup c.fields.tps "60" = some v →
      ∃ w, r.tp_60 = some w ∧ |w.toRat - v.toRat| < 1 / 10 ^ 4)
    (h80 : ∀ v, tpLookup c.fields.tps "80" = some v →
      ∃ w, r.tp_80 = some w ∧ |w.toRat - v.toRat| < 1 / 10 ^ 4)
    (h100 : ∀ v, tpLookup c.fields.tps "100" = some v →
      ∃ w, r.tp_100 = some w ∧ |w.toRat - v.toRat| < 1 / 10 ^ 4) :
    is_duplicate_signal c [r] = true := by
  have hzero : e.near Dec.zero = true := by
    rw [Dec.near_iff, Dec.zero_toRat, sub_zero]
    exact hnear
  have hstep : ∀ (k : String) (get : Row → Option Dec),
      (∀ v, tpLookup c.fields.tps k = some v →
        ∃ w, get r = some w ∧ |w.toRat - v.toRat| < 1 / 10 ^ 4) →
      tpFilterStep c k get [r] = [r] := by
    intro k get hk
    rcases h : tpLookup c.fields.tps k with _ | v
    · simp [tpFilterStep, h]
    · obtain ⟨w, hw, hwv⟩ := hk v h
      have : w.near v = true := by rw [Dec.near_iff]; exact hwv
      simp [tpFilterStep, h, List.filter, hw, nearCell, this]
  simp only [is_duplicate_signal, List.isEmpty_cons, Bool.false_eq_true, if_false, List.filter,
    hcs, hrs, hcd, hrd, hce, hre, optStrEq, nearCell, Option.getD_none, beq_self_eq_true,
    Bool.and_self, hzero, Bool.true_and, Bool.and_true,
    show decide (|r.timestamp - c.timestamp| ≤ 60 * 60) = true from by
      rw [decide_eq_true_eq]; exact hts]
  rw [hstep "40" Row.tp_40 h40, hstep "60" Row.tp_60 h60,
    hstep "80" Row.tp_80 h80, hstep "100" Row.tp_100 h100]
  rfl

/-- Witness for C8: an entry-less candidate matches a row whose entry is
0.00001. -/
theorem missing_entry_compares_against_zero_witness :
    is_duplicate_signal
      ⟨{ symbol := some "XUSDT", direction := some "Long", entry := none,
         tps := [("40", ⟨2, 0, Or.inl rfl⟩)], hit_price := none }, 0⟩
      [{ symbol := some "XUSDT", direction := some "Long",
         entry := some ⟨1, 5, Or.inr (by decide)⟩, tp_40 := some ⟨2, 0, Or.inl rfl⟩,
         tp_60 := none, tp_80 := none, tp_100 := none, hit_price := none,
         timestamp := 600 }] = true := by
  apply missing_entry_compares_against_zero _ _ "XUSDT" "Long" ⟨1, 5, Or.inr (by decide)⟩
    rfl rfl rfl rfl rfl rfl
  · rw [Dec.toRat, abs_of_nonneg (by norm_num)]
    norm_num
  · norm_num
  · intro v hv
    refine ⟨⟨2, 0, Or.inl rfl⟩, rfl, ?_⟩
    have : v = ⟨2, 0, Or.inl rfl⟩ := by
      have h := hv
      simp [tpLookup, List.find?] at h
      exact h.symm
    rw [this, sub_self, abs_zero]
    norm_num
  · intro v hv
    simp [tpLookup, List.find?] at hv
  · intro v hv
    simp [tpLookup, List.find?] at hv
  · intro v hv
    simp [tpLookup, List.find?] at hv

/-- C4: post-merge invariant — whenever a run completes (the store is
rewritten), every row of the final dataset has its symbol, entry and four
canonical take-profit cells present, provided every pre-existing row
already had them: new rows pass the `dropna` of line 116, and the
exact-row deduplication of line 124 only ever keeps rows of the
concatenation. -/
theorem post_merge_required_fields_present (prior : Option (List Row)) (msgs : List RawMessage)
    (store : List Row) (backup : Option (List Row))
    (hprior : ∀ r ∈ prior.getD [], rowComplete r)
    (hrun : runPipeline prior msgs = .written store backup) :
    ∀ r ∈ store, rowComplete r := by
  intro r hr
  cases prior with
  | none =>
    simp only [runPipeline, Option.getD_none] at hrun
    split at hrun
    · injection hrun with h1 h2
      subst h1
      obtain ⟨c, hc, rfl⟩ := List.mem_map.mp hr
      exact rowComplete_toRow c (List.mem_filter.mp hc).2
    · exact absurd hrun (by simp)
  | some existing =>
    simp only [runPipeline, Option.getD_some] at hrun
    split at hrun
    · injection hrun with h1 h2
      subst h1
      rcases List.mem_append.mp (mem_of_mem_dropDupAux _ _ _ hr) with hmem | hmem
      · exact hprior r hmem
      · obtain ⟨c, hc, rfl⟩ := List.mem_map.mp hmem
        exact rowComplete_toRow c (List.mem_filter.mp hc).2
    · exact absurd hrun (by simp)

/-- Witness for C4: the completed run over the scenario message yields a
store whose single row satisfies the invariant. -/
theorem post_merge_required_fields_present_witness : rowComplete scenarioRow1 :=
  post_merge_required_fields_present (some []) [⟨scenarioText1, 0⟩] [scenarioRow1] (some [])
    (by simp) (by decide) scenarioRow1 (List.mem_singleton.mpr rfl)

/-- C1 (code bug): the end-to-end duplicate-suppression scenario fails on
the code.  Run 1 persists the signal with its symbol normalized to
`BTCUSDT` (line 118); run 2 refetches the same message thirty minutes
later with entry 1.00002, but the detector compares the freshly parsed
symbol `BTC/USDT` against the persisted `BTCUSDT` (line 82), so the
refetch is not flagged and the final dataset ends with two rows for the
signal.  The third conjunct isolates the slip: against the same history
row carrying the unnormalized symbol, the refetch would be flagged. -/
theorem crossrun_refetch_not_flagged_two_rows :
    runPipeline none [⟨scenarioText1, 0⟩] = .written [scenarioRow1] none ∧
    is_duplicate_signal ⟨parse_signal scenarioText2, 1800⟩ [scenarioRow1] = false ∧
    is_duplicate_signal ⟨parse_signal scenarioText2, 1800⟩
      [{scenarioRow1 with symbol := some "BTC/USDT"}] = true ∧
    runPipeline (some [scenarioRow1]) [⟨scenarioText2, 1800⟩]
      = .written [scenarioRow1, scenarioRow2] (some [scenarioRow1]) :=
  ⟨by decide, by decide, by decide, by decide⟩

/-- C5 counterexample: the backup artifact is not byte-identical to the
pre-run store content in general — a numeric cell `"1.10"` is parsed by
`read_csv` to the float 1.1 and re-rendered by `to_csv` as `"1.1"`. -/
theorem backup_not_byte_identical_counterexample :
    backupContent [["1.10"]] ≠ [["1.10"]] := by decide

/-- C5 (amended): the backup artifact is the cellwise
`to_csv(read_csv(...))` re-serialization of the pre-run dataset store
content, and it is byte-identical to that content exactly when every cell
is a fixed point of the round trip (as are all cells previously written
by `to_csv` itself). -/
theorem backup_byte_identical_iff_cells_fixed (store : List (List String)) :
    backupContent store = store ↔ ∀ row ∈ store, ∀ cell ∈ row, backupCell cell = cell := by
  unfold backupContent
  rw [map_self_iff]
  constructor
  · intro h row hrow cell hcell
    exact (map_self_iff backupCell row).mp (h row hrow) cell hcell
  · intro h row hrow
    exact (map_self_iff backupCell row).mpr (h row hrow)

/-! ## Adequacy of the fuel-based `findall` loop

`findTps` runs its scanner on fuel `cs.length`.  The following lemmas
show the fuel is immaterial (any sufficient fuel computes the same list)
and that `findTps` satisfies exactly the intended non-overlapping
leftmost-match recursion. -/

theorem matchDecimal_rest_length (cs : List Char) (q : Dec) (r : List Char)
    (h : matchDecimal cs = some (q, r)) : r.length < cs.length := by
  have hdw : (cs.dropWhile Char.isDigit).length ≤ cs.length :=
    (List.dropWhile_sublist Char.isDigit).length_le
  simp only [matchDecimal] at h
  split at h
  · rename_i r2 heq
    split at h
    · exact absurd h (by simp)
    · split at h
      · exact absurd h (by simp)
      · simp only [Option.some.injEq, Prod.mk.injEq] at h
        obtain ⟨-, hr⟩ := h
        subst hr
        have h2 : (r2.dropWhile Char.isDigit).length ≤ r2.length :=
          (List.dropWhile_sublist Char.isDigit).length_le
        rw [heq] at hdw
        simp only [List.length_cons] at hdw
        omega
  · exact absurd h (by simp)

theorem matchTpAt_rest_length (cs : List Char) (p : String) (q : Dec) (r : List Char)
    (h : matchTpAt cs = some (p, q, r)) : r.length < cs.length := by
  simp only [matchTpAt] at h
  split at h
  · exact absurd h (by simp)
  · rename_i price r0 hdec
    have hr0 : r0.length < cs.length := matchDecimal_rest_length cs price r0 hdec
    have hr0w : (r0.dropWhile isPySpace).length ≤ r0.length :=
      (List.dropWhile_sublist isPySpace).length_le
    split at h
    · rename_i r3 heq
      split at h
      · exact absurd h (by simp)
      · split at h
        · simp only [Option.some.injEq, Prod.mk.injEq] at h
          obtain ⟨-, -, hr⟩ := h
          subst hr
          have h3 : (r3.dropWhile Char.isDigit).length ≤ r3.length :=
            (List.dropWhile_sublist Char.isDigit).length_le
          have h4 : ((r3.dropWhile Char.isDigit).drop tpTail.length).length
              ≤ (r3.dropWhile Char.isDigit).length := (List.drop_sublist _ _).length_le
          rw [heq] at hr0w
          simp only [List.length_cons] at hr0w
          omega
        · exact absurd h (by simp)
    · exact absurd h (by simp)

theorem findTpsAux_nil (f : ℕ) : findTpsAux f [] = [] := by
  cases f <;> rfl

theorem findTpsAux_fuel_irrelevant :
    ∀ (f1 f2 : ℕ) (cs : List Char), cs.length ≤ f1 → cs.length ≤ f2 →
      findTpsAux f1 cs = findTpsAux f2 cs := by
  intro f1
  induction f1 using Nat.strong_induction_on with
  | _ f1 ih =>
    intro f2 cs h1 h2
    cases cs with
    | nil => rw [findTpsAux_nil, findTpsAux_nil]
    | cons c rest =>
      simp only [List.length_cons] at h1 h2
      cases f1 with
      | zero => omega
      | succ f1' =>
        cases f2 with
        | zero => omega
        | succ f2' =>
          cases hm : matchTpAt (c :: rest) with
          | none =>
            simp only [findTpsAux, hm]
            exact ih f1' (by omega) f2' rest (by omega) (by omega)
          | some triple =>
            obtain ⟨pct, price, after⟩ := triple
            have hlen := matchTpAt_rest_length (c :: rest) pct price after hm
            simp only [List.length_cons] at hlen
            simp only [findTpsAux, hm]
            rw [ih f1' (by omega) f2' after (by omega) (by omega)]

/-- `findTps` satisfies the `re.findall` recursion: at each position, on
a match emit the captured pair and resume right after the matched span,
otherwise advance one character. -/
theorem findTps_eq_findall_step (c : Char) (rest : List Char) :
    findTps (c :: rest) = (match matchTpAt (c :: rest) with
      | some (pct, price, after) => (pct, price) :: findTps after
      | none => findTps rest) := by
  cases hm : matchTpAt (c :: rest) with
  | none => simp only [findTps, List.length_cons, findTpsAux, hm]
  | some triple =>
    obtain ⟨pct, price, after⟩ := triple
    have hlen := matchTpAt_rest_length (c :: rest) pct price after hm
    simp only [List.length_cons] at hlen
    simp only [findTps, List.length_cons, findTpsAux, hm]
    rw [findTpsAux_fuel_irrelevant rest.length after.length after (by omega) (by omega)]
